import Mathlib

/-!
Verification of the GeoStack bulk-acquisition engine against its design
specification.  The Lean definitions below are shallow embeddings of the
Python sources:

* `src/GeoSatellite/src/storage.py` (the MBTiles store: schema, tile and
  metadata writes),
* `src/GeoSatellite/src/downloader.py` and `src/GeoTiles/src/downloader.py`
  (tile fetch classification and the concurrent dispatcher loop),
* `src/GeoSatellite/src/utils.py` (the row-convention flip),
* `src/GeoKMZ/osm_downloader.py` (area-based grid partitioning, endpoint
  rotation, the per-tile retry loop, and merge/deduplication).

Machine integers are modelled as `Int`/`Nat` (Python integers are unbounded),
byte strings as `List Nat`, SQLite tables as row lists, network and randomness
effects as explicit oracle parameters.
-/

/-! ## Tile indices and the row-convention flip (GeoSatellite/src/utils.py) -/

/-- A raster tile address `(zoom, column, row)` in top-origin (XYZ) convention,
as produced by `mercantile.tiles`. -/
structure Tile where
  z : Nat
  x : Int
  y : Int
deriving DecidableEq, Repr

/-- Function `flip_y` from `src/GeoSatellite/src/utils.py`: converts a top-origin (XYZ)
row to the bottom-origin (TMS) row required by the MBTiles format. -/
def flip_y (z : Nat) (y : Int) : Int := (2 ^ z - 1) - y

/-! ## The MBTiles store (GeoSatellite/src/storage.py)

`_init_schema` creates
* `metadata (name text, value text)` with NO uniqueness constraint, and
* `tiles (zoom_level, tile_column, tile_row, tile_data)` with a UNIQUE index
  over the first three columns.

SQLite conflict resolution is modelled generically: a statement with an
`OR IGNORE`/`OR REPLACE` clause consults the uniqueness constraints declared
by the schema; when the schema declares none, the conflict clause never fires
and the statement degenerates to a plain `INSERT`. -/

/-- One row of the `tiles` table. -/
structure TileRow (α : Type) where
  z : Int
  x : Int
  y : Int
  data : α
deriving Repr

/-- The triple covered by the unique index `tile_index` of the schema. -/
def rowKey {α : Type} (r : TileRow α) : Int × Int × Int := (r.z, r.x, r.y)

/-- SQLite `INSERT OR IGNORE`: the row is inserted unless it conflicts with an
existing row under the uniqueness predicate `conflict`; on conflict the write
is silently dropped. -/
def insertOrIgnore {α : Type} (conflict : α → α → Bool) (tbl : List α)
    (row : α) : List α :=
  if tbl.any (fun r => conflict r row) then tbl else tbl ++ [row]

/-- SQLite `INSERT OR REPLACE`: rows conflicting with the new row under some
declared uniqueness constraint are deleted, then the new row is inserted.
With no declared constraint (`conflict` constantly false, as for the
`metadata` table of this schema) it is a plain append. -/
def insertOrReplace {α : Type} (conflict : α → α → Bool) (tbl : List α)
    (row : α) : List α :=
  (tbl.filter fun r => ! conflict r row) ++ [row]

/-- Conflict predicate induced by the unique index on
`(zoom_level, tile_column, tile_row)`. -/
def tileConflict {α : Type} (r r' : TileRow α) : Bool :=
  decide (rowKey r = rowKey r')

/-- Method `MBTilesStorage.save_tile`: `INSERT OR IGNORE INTO tiles` under the
unique `tile_index`.  Expects the row already flipped to TMS by the caller. -/
def save_tile {α : Type} (tbl : List (TileRow α)) (z x y : Int) (d : α) :
    List (TileRow α) :=
  insertOrIgnore tileConflict tbl ⟨z, x, y, d⟩

/-- The payload stored under a key, if any (first matching row, as read by
`SELECT ... WHERE zoom_level=? AND tile_column=? AND tile_row=?` with
`fetchone`, the access pattern of `mbview.py`). -/
def lookupTile {α : Type} (tbl : List (TileRow α)) (k : Int × Int × Int) :
    Option α :=
  (tbl.find? fun r => decide (rowKey r = k)).map TileRow.data

/-- Rows of `MBTilesStorage.save_metadata`: the six rows written by one call, in
statement order. -/
def metaRows (name description boundsStr fmt : String) :
    List (String × String) :=
  [("name", name), ("type", "overlay"), ("version", "1.2"),
   ("description", description), ("format", fmt), ("bounds", boundsStr)]

/-- Method `MBTilesStorage.save_metadata`: `executemany` of
`INSERT OR REPLACE INTO metadata (name, value) VALUES (?, ?)`.  The schema
declares no uniqueness constraint on `metadata`, so the conflict predicate is
constantly false. -/
def save_metadata (tbl : List (String × String))
    (name description boundsStr fmt : String) : List (String × String) :=
  (metaRows name description boundsStr fmt).foldl
    (insertOrReplace fun _ _ => false) tbl

lemma insertOrIgnore_mem {α : Type} (conflict : α → α → Bool)
    (tbl : List α) (row : α) (h : tbl.any (fun r => conflict r row) = true) :
    insertOrIgnore conflict tbl row = tbl := by
  simp [insertOrIgnore, h]

lemma save_tile_hasKey {α : Type} (tbl : List (TileRow α)) (z x y : Int)
    (d : α) :
    ((save_tile tbl z x y d).any
      (fun r => tileConflict r ⟨z, x, y, d⟩)) = true := by
  unfold save_tile insertOrIgnore
  by_cases h : (tbl.any fun r => tileConflict r ⟨z, x, y, d⟩) = true
  · simp [h]
  · simp only [h, if_false, List.any_append]
    simp [tileConflict, rowKey]

/-- C2. `upsertTile` is idempotent per key: a second `save_tile` with the
same `(zoom, column, row)` leaves the table unchanged — in particular the
stored payload is still the first-written one and the row count is unchanged
(first-write-wins; the duplicate write is ignored, not an overwrite). -/
theorem c2_upsert_tile_idempotent {α : Type} (tbl : List (TileRow α))
    (z x y : Int) (p q : α) :
    save_tile (save_tile tbl z x y p) z x y q = save_tile tbl z x y p ∧
    lookupTile (save_tile (save_tile tbl z x y p) z x y q) (z, x, y)
      = lookupTile (save_tile tbl z x y p) (z, x, y) ∧
    (save_tile (save_tile tbl z x y p) z x y q).length
      = (save_tile tbl z x y p).length := by
  have hkey := save_tile_hasKey tbl z x y p
  have heq : save_tile (save_tile tbl z x y p) z x y q
      = save_tile tbl z x y p := by
    unfold save_tile
    apply insertOrIgnore_mem
    have hfun : (fun r : TileRow α => tileConflict r ⟨z, x, y, q⟩)
        = fun r => tileConflict r ⟨z, x, y, p⟩ := by
      funext r; simp [tileConflict, rowKey]
    rw [hfun]
    exact hkey
  exact ⟨heq, by rw [heq], by rw [heq]⟩

/-! ## Metadata writes (C10)

`save_metadata` issues `INSERT OR REPLACE`, but `_init_schema` gives the
`metadata` table no uniqueness constraint, so in SQLite the `OR REPLACE`
clause never fires: each call appends six fresh rows and duplicate names
accumulate.  A reader such as `mbview.py` (a SELECT on the bounds name
followed by `fetchone`) then sees the oldest row, not the most recent
one. -/

/-- The first value stored under a metadata name, as read by
`SELECT value FROM metadata WHERE name=?` with `fetchone`. -/
def readMeta (tbl : List (String × String)) (k : String) : Option String :=
  (tbl.find? fun r => r.1 == k).map Prod.snd

/-- C10, code evaluation. Calling `save_metadata` twice on a fresh store
does NOT replace the rows of the first call: both `name` rows survive, the
table holds twelve rows, and a point read of `name` still returns the value
of the FIRST call.  This contradicts the intended last-write-wins upsert of
`INSERT OR REPLACE`, which is defeated by the missing uniqueness constraint
on `metadata`. -/
theorem c10_metadata_not_replaced :
    (((save_metadata (save_metadata [] "LayerA" "descA" "0,0,1,1" "jpg")
        "LayerB" "descB" "2,2,3,3" "png").filter
          fun r => r.1 == "name").map Prod.snd = ["LayerA", "LayerB"]) ∧
    (save_metadata (save_metadata [] "LayerA" "descA" "0,0,1,1" "jpg")
        "LayerB" "descB" "2,2,3,3" "png").length = 12 ∧
    readMeta (save_metadata (save_metadata [] "LayerA" "descA" "0,0,1,1" "jpg")
        "LayerB" "descB" "2,2,3,3" "png") "name" = some "LayerA" := by
  refine ⟨?_, ?_, ?_⟩ <;> rfl


/-! ## Tile fetchers (GeoSatellite and GeoTiles `fetch_tile_content`)

An HTTP interaction is modelled by an oracle `net : String → Except String
HttpResp`: `Except.error e` is a raised network/runtime exception with message
`e` (the `except Exception` branch), `Except.ok` a returned response.  Bodies
are byte lists. -/

/-- An HTTP response: status code and body bytes. -/
structure HttpResp where
  status : Nat
  body : List Nat
deriving DecidableEq, Repr

/-- Python `needle in hay` on byte strings: `needle` occurs contiguously
somewhere in `hay`. -/
def containsSeq (needle hay : List Nat) : Bool :=
  hay.tails.any fun t => needle.isPrefixOf t

/-- The four magic bytes of a PNG file, checked with `startswith` on the
response body in `GeoTiles/src/downloader.py`. -/
def pngMagic : List Nat := [0x89, 0x50, 0x4E, 0x47]

/-- The bytes of the marker ServiceException, searched anywhere in the body
by `GeoSatellite/src/downloader.py`. -/
def seBytes : List Nat :=
  [83, 101, 114, 118, 105, 99, 101, 69, 120, 99, 101, 112, 116, 105, 111, 110]

/-- The bytes of the marker `<html`, searched in the first 50 body bytes by
`GeoSatellite/src/downloader.py`. -/
def htmlBytes : List Nat := [60, 104, 116, 109, 108]

/-- Body classification of the GeoTiles fetcher on a returned response:
status 200 with a body carrying the PNG magic prefix yields the payload,
anything else yields no payload (the `return tile, None, None` fallthrough). -/
def geotilesClassify (resp : HttpResp) : Option (List Nat) :=
  if resp.status = 200 then
    if pngMagic.isPrefixOf resp.body then some resp.body else none
  else none

/-- Body classification of the GeoSatellite fetcher on a returned response:
status 200 yields the payload unless the body contains `ServiceException`
anywhere or `<html` within its first 50 bytes, in which case the result is
empty; non-200 is empty. -/
def geosatClassify (resp : HttpResp) : Option (List Nat) :=
  if resp.status = 200 then
    if containsSeq seBytes resp.body || containsSeq htmlBytes (resp.body.take 50)
    then none
    else some resp.body
  else none

/-- Function `fetch_tile_content` of `GeoTiles/src/downloader.py`.  The URL is built by
`random.choice(servers).format(...)` BEFORE the `try` block; the choice of
server is modelled by the ambient PRNG draw `rand` (index `rand %
servers.length`), and `random.choice` on an empty sequence raises an
`IndexError` that nothing catches, so the whole call is `Except`-valued. -/
def geotilesFetchTile (t : Tile) (servers : List String) (rand : Nat)
    (net : String → Except String HttpResp) :
    Except String (Tile × Option (List Nat) × Option String) :=
  if servers.isEmpty then
    Except.error "IndexError: Cannot choose from an empty sequence"
  else
    let url := servers.getD (rand % servers.length) ""
    Except.ok (match net url with
      | Except.error e => (t, none, some e)
      | Except.ok resp => (t, geotilesClassify resp, none))

/-- Function `fetch_tile_content` of `GeoSatellite/src/downloader.py`: a single
configured URL template (no server choice), then the same try/except shape.
The formatted URL is abstracted into the oracle argument. -/
def geosatFetchTile (t : Tile) (net : Except String HttpResp) :
    Tile × Option (List Nat) × Option String :=
  match net with
  | Except.error e => (t, none, some e)
  | Except.ok resp => (t, geosatClassify resp, none)

/-- C6. On an HTTP 200 response each fetcher validates the body and never
classifies a body failing its validation as a success: a GeoTiles success
payload is exactly the body and carries the PNG magic prefix, a GeoSatellite
success payload is exactly the body and is free of `ServiceException` and of
a leading-window `<html` marker; a 200 body failing the validation is
classified as empty (no payload). -/
theorem c6_success_only_validated (resp : HttpResp) :
    (∀ p, geotilesClassify resp = some p →
      resp.status = 200 ∧ pngMagic.isPrefixOf p = true ∧ p = resp.body) ∧
    (∀ p, geosatClassify resp = some p →
      resp.status = 200 ∧ containsSeq seBytes p = false ∧
        containsSeq htmlBytes (p.take 50) = false ∧ p = resp.body) ∧
    (resp.status = 200 → pngMagic.isPrefixOf resp.body = false →
      geotilesClassify resp = none) ∧
    (resp.status = 200 → containsSeq htmlBytes (resp.body.take 50) = true →
      geosatClassify resp = none) ∧
    (resp.status = 200 → containsSeq seBytes resp.body = true →
      geosatClassify resp = none) := by
  refine ⟨?_, ?_, ?_, ?_, ?_⟩
  · intro p hp
    unfold geotilesClassify at hp
    by_cases h200 : resp.status = 200
    · rw [if_pos h200] at hp
      cases hm : pngMagic.isPrefixOf resp.body
      · simp [hm] at hp
      · simp only [hm, if_true] at hp
        cases hp
        exact ⟨h200, hm, rfl⟩
    · simp [h200] at hp
  · intro p hp
    unfold geosatClassify at hp
    by_cases h200 : resp.status = 200
    · rw [if_pos h200] at hp
      cases hse : containsSeq seBytes resp.body
      · cases hh : containsSeq htmlBytes (resp.body.take 50)
        · simp only [hse, hh, Bool.or_self, if_false] at hp
          cases hp
          exact ⟨h200, hse, hh, rfl⟩
        · simp [hse, hh] at hp
      · simp [hse] at hp
    · simp [h200] at hp
  · intro h200 hm
    unfold geotilesClassify
    simp [h200, hm]
  · intro h200 hh
    unfold geosatClassify
    simp [h200, hh]
  · intro h200 hse
    unfold geosatClassify
    simp [h200, hse]

/-- Witness for `c6_success_only_validated`: a 200 response whose body is a
bare HTML marker is classified as empty by both fetchers. -/
theorem c6_witness :
    geotilesClassify ⟨200, [60, 104, 116, 109, 108]⟩ = none ∧
    geosatClassify ⟨200, [60, 104, 116, 109, 108]⟩ = none :=
  ⟨(c6_success_only_validated ⟨200, [60, 104, 116, 109, 108]⟩).2.2.1
      rfl (by decide),
   (c6_success_only_validated ⟨200, [60, 104, 116, 109, 108]⟩).2.2.2.1
      rfl (by decide)⟩

/-! ## C9: totality of the raster fetchers

In both sources the `try` block begins only after the URL has been built.  In
`GeoTiles/src/downloader.py` the URL line calls `random.choice(servers)`,
which raises an uncaught `IndexError` when the configured server list is
empty, so the function is NOT total at its public boundary.  Inside the guard
of a nonempty server list, every oracle outcome yields a returned triple and
a raised network exception is converted into the error-message component. -/

/-- C9, counterexample. With an empty server list the GeoTiles
`fetch_tile_content` does not return a `(tile, payload, error)` triple: the
`IndexError` raised by `random.choice` on the URL-construction line, which is
outside the `try` block, propagates to the caller. -/
theorem c9_counterexample :
    geotilesFetchTile ⟨1, 0, 0⟩ [] 0 (fun _ => Except.ok ⟨200, []⟩)
      = Except.error "IndexError: Cannot choose from an empty sequence" := by
  rfl

/-- C9, amended. For every input whose server list is nonempty, the
GeoTiles fetcher returns a triple whose first component is the requested
tile, and a raised network exception is caught and returned as the
error-message component with no payload; the GeoSatellite fetcher (whose URL
construction is a plain template format) does the same for every oracle
outcome. -/
theorem c9_fetch_total_on_nonempty_servers (t : Tile) (servers : List String)
    (rand : Nat) (net : String → Except String HttpResp) (e : String)
    (hs : servers.isEmpty = false) :
    (∃ out, geotilesFetchTile t servers rand net = Except.ok out ∧
      out.1 = t) ∧
    geotilesFetchTile t servers rand (fun _ => Except.error e)
      = Except.ok (t, none, some e) ∧
    geosatFetchTile t (Except.error e) = (t, none, some e) ∧
    (∀ resp, geosatFetchTile t (Except.ok resp)
      = (t, geosatClassify resp, none)) := by
  refine ⟨?_, ?_, rfl, fun resp => rfl⟩
  · cases hnet : net (servers.getD (rand % servers.length) "") with
    | error e2 =>
      refine ⟨(t, none, some e2), ?_, rfl⟩
      simp only [geotilesFetchTile, hs, Bool.false_eq_true, if_false, hnet]
    | ok resp =>
      refine ⟨(t, geotilesClassify resp, none), ?_, rfl⟩
      simp only [geotilesFetchTile, hs, Bool.false_eq_true, if_false, hnet]
  · simp only [geotilesFetchTile, hs, Bool.false_eq_true, if_false]

/-- Witness for `c9_fetch_total_on_nonempty_servers`: with one configured
server and an oracle that raises, both fetchers return the exception message
as the error component of a triple. -/
theorem c9_witness :
    geotilesFetchTile ⟨1, 0, 0⟩ ["s"] 0 (fun _ => Except.error "timeout")
      = Except.ok (⟨1, 0, 0⟩, none, some "timeout") ∧
    geosatFetchTile ⟨1, 0, 0⟩ (Except.error "timeout")
      = (⟨1, 0, 0⟩, none, some "timeout") :=
  ⟨(c9_fetch_total_on_nonempty_servers ⟨1, 0, 0⟩ ["s"] 0
      (fun _ => Except.error "timeout") "timeout" rfl).2.1,
   (c9_fetch_total_on_nonempty_servers ⟨1, 0, 0⟩ ["s"] 0
      (fun _ => Except.error "timeout") "timeout" rfl).2.2.1⟩

/-! ## Endpoint selection (C3)

`OSMDownloader.fetch_layer` picks `servers[(i + attempt) % len(servers)]` for
tile `i` and attempt `attempt`; `fetch_save_voivodeships_geojson` picks
`servers[i % n_servers]` (one attempt per tile).  The GeoTiles raster fetcher
instead picks `random.choice(servers)` — a draw from the ambient PRNG, here
made explicit as the `rand` argument. -/

/-- Endpoint selection of `OSMDownloader.fetch_layer` (line
`current_server = servers[(i + attempt) % len(servers)]`). -/
def fetchLayerServer (servers : List String) (i attempt : Nat) : String :=
  servers.getD ((i + attempt) % servers.length) ""

/-- Endpoint selection of `fetch_save_voivodeships_geojson` (line
`server = servers[i % n_servers]`). -/
def voivServer (servers : List String) (i : Nat) : String :=
  servers.getD (i % servers.length) ""

/-- Endpoint selection of the GeoTiles raster fetcher:
`random.choice(servers)`, modelled by the explicit PRNG draw `rand`. -/
def geotilesServer (servers : List String) (rand : Nat) : String :=
  servers.getD (rand % servers.length) ""

/-- C3, counterexample. In the GeoTiles raster path the endpoint is NOT
a deterministic function of the work-unit index and attempt number: with the
same two-server configuration and the same work unit, two runs whose ambient
PRNG draws differ select different endpoints. -/
theorem c3_counterexample :
    geotilesServer ["https://a.tile.org", "https://b.tile.org"] 0
      ≠ geotilesServer ["https://a.tile.org", "https://b.tile.org"] 1 := by
  decide

lemma mod_rot_ne (i a b n : Nat) (hab : a < b) (hd : b - a < n) :
    (i + a) % n ≠ (i + b) % n := by
  intro h
  have hmod : n ∣ (i + b) - (i + a) :=
    (Nat.modEq_iff_dvd' (by omega)).mp h
  have hba : i + b - (i + a) = b - a := by omega
  rw [hba] at hmod
  have := Nat.le_of_dvd (by omega) hmod
  omega

lemma getD_ne_of_nodup (l : List String) (k1 k2 : Nat) (h1 : k1 < l.length)
    (h2 : k2 < l.length) (hne : k1 ≠ k2) (hnd : l.Nodup) :
    l.getD k1 "" ≠ l.getD k2 "" := by
  have e1 : l.getD k1 "" = l.get ⟨k1, h1⟩ := by
    rw [List.getD_eq_getD_get?, List.get?_eq_get h1]; rfl
  have e2 : l.getD k2 "" = l.get ⟨k2, h2⟩ := by
    rw [List.getD_eq_getD_get?, List.get?_eq_get h2]; rfl
  rw [e1, e2]
  intro h
  have := (List.Nodup.get_inj_iff hnd).mp h
  exact hne (congrArg Fin.val this)

/-- C3, amended. In the sequential vector path endpoint selection is the
deterministic rotation of the claim: `fetch_layer` selects exactly position
`(i + attempt) mod serverCount` of the ordered list (and the voivodeship
fetch position `i mod serverCount`, with a single attempt per tile), so equal
inputs always select equal endpoints; and within any window of `serverCount`
consecutive attempts for the same unit, two distinct attempts never select
the same endpoint.  The GeoTiles raster path instead draws the endpoint from
the PRNG (see `c3_counterexample`). -/
theorem c3_rotation_deterministic (servers : List String) (i a b : Nat)
    (hnd : servers.Nodup) (hab : a ≠ b)
    (hwin : max a b - min a b < servers.length) :
    fetchLayerServer servers i a
      = servers.getD ((i + a) % servers.length) "" ∧
    voivServer servers i = servers.getD (i % servers.length) "" ∧
    (i + a) % servers.length ≠ (i + b) % servers.length ∧
    fetchLayerServer servers i a ≠ fetchLayerServer servers i b := by
  have hn : 0 < servers.length := by omega
  have hidx : (i + a) % servers.length ≠ (i + b) % servers.length := by
    rcases Nat.lt_or_ge a b with hlt | hge
    · exact mod_rot_ne i a b servers.length hlt (by omega)
    · have hlt : b < a := by omega
      exact fun h => mod_rot_ne i b a servers.length hlt (by omega) h.symm
  refine ⟨rfl, rfl, hidx, ?_⟩
  exact getD_ne_of_nodup servers _ _ (Nat.mod_lt _ hn) (Nat.mod_lt _ hn)
    hidx hnd

/-- Witness for `c3_rotation_deterministic`: two servers, work unit 0,
attempts 1 and 2 select positions 1 and 0 — different endpoints. -/
theorem c3_witness :
    fetchLayerServer ["https://a.tile.org", "https://b.tile.org"] 0 1
      ≠ fetchLayerServer ["https://a.tile.org", "https://b.tile.org"] 0 2 :=
  (c3_rotation_deterministic ["https://a.tile.org", "https://b.tile.org"]
    0 1 2 (by decide) (by decide) (by decide)).2.2.2

/-! ## The per-tile retry loop of `OSMDownloader.fetch_layer` (C4, C8)

One Overpass call either returns a feature frame (modelled by its record
count, `FetchRes.ok m`, where `m = 0` is an empty `gdf`) or raises an
exception (`FetchRes.exc msg`).  The loop body
`for attempt in range(1, max_attempts + 1)` breaks on a returned frame
(whether empty or not), and on an exception sleeps and moves to the next
attempt.  The backoff sleeps are timing-only side effects and are not
modelled.  The `stop_flag` check at the top of each iteration is kept as the
`stop` oracle. -/

/-- Outcome of one `ox.features_from_polygon` call. -/
inductive FetchRes where
  | ok : Nat → FetchRes
  | exc : String → FetchRes
deriving DecidableEq, Repr

/-- The attempt loop body for one tile, iterated over the list of remaining
attempt numbers.  Returns the number of fetch calls performed and the frame
appended to `frames`, if any (the count of a nonempty result). -/
def attemptLoop (fetch : Nat → FetchRes) (stop : Nat → Bool) :
    List Nat → Nat × Option Nat
  | [] => (0, none)
  | a :: rest =>
    if stop a then (0, none)
    else
      match fetch a with
      | FetchRes.ok m => (1, if m = 0 then none else some m)
      | FetchRes.exc _ =>
        let r := attemptLoop fetch stop rest
        (r.1 + 1, r.2)

/-- The list `range(1, max_attempts + 1)`: attempt numbers `1, ..., maxAttempts`. -/
def attemptSeq (maxAttempts : Nat) : List Nat :=
  (List.range maxAttempts).map (· + 1)

/-- The whole per-tile fetch of `fetch_layer`: attempts with retry, yielding
(number of attempts performed, appended frame if any). -/
def fetchTileLoop (fetch : Nat → FetchRes) (stop : Nat → Bool)
    (maxAttempts : Nat) : Nat × Option Nat :=
  attemptLoop fetch stop (attemptSeq maxAttempts)

/-- The outer loop of `fetch_layer` over the tile work list: each tile is
fetched in turn with the full retry policy and the successful frames are
collected in order. -/
def layerFrames (fetches : List (Nat → FetchRes)) (stop : Nat → Bool)
    (maxAttempts : Nat) : List Nat :=
  fetches.filterMap fun f => (fetchTileLoop f stop maxAttempts).2

lemma attemptLoop_all_exc (fetch : Nat → FetchRes) (stop : Nat → Bool)
    (l : List Nat) (hstop : ∀ a, stop a = false)
    (hfail : ∀ a, ∃ m, fetch a = FetchRes.exc m) :
    attemptLoop fetch stop l = (l.length, none) := by
  induction l with
  | nil => rfl
  | cons a rest ih =>
    obtain ⟨m, hm⟩ := hfail a
    simp only [attemptLoop, hstop a, Bool.false_eq_true, if_false, hm, ih,
      List.length_cons]

/-- C4. A work unit whose every fetch attempt raises a (retryable) error
is attempted exactly `maxAttempts` times, yields no frame, and the outer loop
proceeds to the remaining units: the frames of a work list containing the
always-failing unit are exactly the frames of the units before it followed by
the frames of the units after it. -/
theorem c4_retry_exhaustion (fetch : Nat → FetchRes) (stop : Nat → Bool)
    (maxAttempts : Nat) (pre post : List (Nat → FetchRes))
    (hstop : ∀ a, stop a = false)
    (hfail : ∀ a, ∃ m, fetch a = FetchRes.exc m) :
    (fetchTileLoop fetch stop maxAttempts).1 = maxAttempts ∧
    (fetchTileLoop fetch stop maxAttempts).2 = none ∧
    layerFrames (pre ++ fetch :: post) stop maxAttempts
      = layerFrames pre stop maxAttempts
        ++ layerFrames post stop maxAttempts := by
  have hloop : fetchTileLoop fetch stop maxAttempts = (maxAttempts, none) := by
    unfold fetchTileLoop
    rw [attemptLoop_all_exc fetch stop _ hstop hfail]
    simp [attemptSeq]
  refine ⟨by rw [hloop], by rw [hloop], ?_⟩
  unfold layerFrames
  rw [List.filterMap_append, List.filterMap_cons]
  rw [hloop]

/-- Witness for `c4_retry_exhaustion`: a unit that always times out is
attempted exactly 3 times (the default `max_attempts`), contributes no frame,
and a following unit with 5 records is still fetched. -/
theorem c4_witness :
    (fetchTileLoop (fun _ => FetchRes.exc "GatewayTimeout 504")
      (fun _ => false) 3).1 = 3 ∧
    (fetchTileLoop (fun _ => FetchRes.exc "GatewayTimeout 504")
      (fun _ => false) 3).2 = none ∧
    layerFrames ([] ++ (fun _ => FetchRes.exc "GatewayTimeout 504")
        :: [fun _ => FetchRes.ok 5]) (fun _ => false) 3
      = layerFrames [] (fun _ => false) 3
        ++ layerFrames [fun _ => FetchRes.ok 5] (fun _ => false) 3 :=
  c4_retry_exhaustion (fun _ => FetchRes.exc "GatewayTimeout 504")
    (fun _ => false) 3 [] [fun _ => FetchRes.ok 5]
    (fun _ => rfl) (fun _ => ⟨"GatewayTimeout 504", rfl⟩)

/-- C8. An errorless empty result is terminal for its sub-region: if the
first attempt returns an empty frame, exactly one attempt is performed (no
retry), the unit contributes no frame, and the outer loop proceeds to the
remaining units. -/
theorem c8_empty_result_terminal (fetch : Nat → FetchRes) (stop : Nat → Bool)
    (maxAttempts : Nat) (pre post : List (Nat → FetchRes))
    (hstop : ∀ a, stop a = false) (hmax : 1 ≤ maxAttempts)
    (hempty : fetch 1 = FetchRes.ok 0) :
    (fetchTileLoop fetch stop maxAttempts).1 = 1 ∧
    (fetchTileLoop fetch stop maxAttempts).2 = none ∧
    layerFrames (pre ++ fetch :: post) stop maxAttempts
      = layerFrames pre stop maxAttempts
        ++ layerFrames post stop maxAttempts := by
  obtain ⟨k, rfl⟩ : ∃ k, maxAttempts = k + 1 :=
    ⟨maxAttempts - 1, by omega⟩
  obtain ⟨rest, hrest⟩ : ∃ rest, attemptSeq (k + 1) = 1 :: rest := by
    refine ⟨(List.range k).map Nat.succ |>.map (· + 1), ?_⟩
    unfold attemptSeq
    rw [List.range_succ_eq_map, List.map_cons]
  have hloop : fetchTileLoop fetch stop (k + 1) = (1, none) := by
    unfold fetchTileLoop
    rw [hrest]
    simp only [attemptLoop, hstop 1, Bool.false_eq_true, if_false, hempty]
    simp
  refine ⟨by rw [hloop], by rw [hloop], ?_⟩
  unfold layerFrames
  rw [List.filterMap_append, List.filterMap_cons]
  rw [hloop]

/-- Witness for `c8_empty_result_terminal`: a sub-region whose first query
returns an empty frame is attempted once out of 3 allowed attempts,
contributes no frame, and a following unit with 5 records is still fetched. -/
theorem c8_witness :
    (fetchTileLoop (fun _ => FetchRes.ok 0) (fun _ => false) 3).1 = 1 ∧
    (fetchTileLoop (fun _ => FetchRes.ok 0) (fun _ => false) 3).2 = none ∧
    layerFrames ([] ++ (fun _ => FetchRes.ok 0)
        :: [fun _ => FetchRes.ok 5]) (fun _ => false) 3
      = layerFrames [] (fun _ => false) 3
        ++ layerFrames [fun _ => FetchRes.ok 5] (fun _ => false) 3 :=
  c8_empty_result_terminal (fun _ => FetchRes.ok 0) (fun _ => false) 3
    [] [fun _ => FetchRes.ok 5] (fun _ => rfl) (by omega) rfl

/-! ## Merge and deduplication (C5)

`fetch_layer` (and `fetch_save_voivodeships_geojson`) concatenate the partial
frames with `pd.concat(frames, ignore_index=True)` and then, only when the
merged frame has an `osmid` column, call
`drop_duplicates` on the `osmid` subset, which keeps the first row of each
`osmid` value in concatenation order.  A feature is modelled by its provider
identity and its attribute payload. -/

/-- One downloaded feature record: provider identity plus attributes. -/
structure Feature (κ α : Type) where
  osmid : κ
  attrs : α
deriving DecidableEq, Repr

/-- Model of `drop_duplicates` on the `osmid` subset keeping first
occurrences: scan in order, dropping every record whose identity is already
in `seen`. -/
def dropDupsBy {κ α : Type} [DecidableEq κ] (seen : List κ) :
    List (Feature κ α) → List (Feature κ α)
  | [] => []
  | r :: rs =>
    if r.osmid ∈ seen then dropDupsBy seen rs
    else r :: dropDupsBy (r.osmid :: seen) rs

/-- The merge step of `fetch_layer`: concatenate the partial result frames in
partition order, then deduplicate by `osmid` — but only when the identity
column is present in the merged data (`hasOsmidCol`). -/
def mergeFrames {κ α : Type} [DecidableEq κ] (hasOsmidCol : Bool)
    (frames : List (List (Feature κ α))) : List (Feature κ α) :=
  let allRecs := frames.flatten
  if hasOsmidCol then dropDupsBy [] allRecs else allRecs

/-- The claimed merge rule, written from the specification: walk the
concatenation in order and keep a record exactly when its identity has not
been carried by an already-kept (hence earlier) record. -/
def keepFirstSeen {κ α : Type} [DecidableEq κ] (l : List (Feature κ α)) :
    List (Feature κ α) :=
  l.foldl
    (fun acc r =>
      if acc.any (fun s => decide (s.osmid = r.osmid)) then acc
      else acc ++ [r])
    []

lemma keepFirstSeen_foldl_eq {κ α : Type} [DecidableEq κ]
    (l : List (Feature κ α)) :
    ∀ (acc : List (Feature κ α)) (seen : List κ),
      (∀ k, k ∈ seen ↔ k ∈ acc.map Feature.osmid) →
      l.foldl
        (fun acc r =>
          if acc.any (fun s => decide (s.osmid = r.osmid)) then acc
          else acc ++ [r])
        acc
      = acc ++ dropDupsBy seen l := by
  induction l with
  | nil => intro acc seen _; simp [dropDupsBy]
  | cons r rs ih =>
    intro acc seen hinv
    simp only [List.foldl_cons, dropDupsBy]
    by_cases hseen : r.osmid ∈ seen
    · have hcond : (acc.any fun s => decide (s.osmid = r.osmid)) = true := by
        rw [List.any_eq_true]
        obtain ⟨s, hsm, he⟩ := List.mem_map.mp ((hinv _).mp hseen)
        exact ⟨s, hsm, by simp [he]⟩
      rw [hcond]
      simp only [hseen, if_true]
      exact ih acc seen hinv
    · have hcond : (acc.any fun s => decide (s.osmid = r.osmid)) = false := by
        rw [List.any_eq_false]
        intro s hsm he
        simp only [decide_eq_true_eq] at he
        exact hseen ((hinv _).mpr (List.mem_map.mpr ⟨s, hsm, he⟩))
      rw [hcond]
      simp only [hseen, if_false, Bool.false_eq_true]
      rw [ih (acc ++ [r]) (r.osmid :: seen) ?_]
      · simp
      · intro k
        simp only [List.mem_cons, List.map_append, List.mem_append,
          List.map_cons, List.map_nil, List.mem_singleton]
        constructor
        · rintro (rfl | hk)
          · exact Or.inr (by simp)
          · exact Or.inl ((hinv k).mp hk)
        · rintro (hk | hk)
          · exact Or.inr ((hinv k).mpr hk)
          · simp at hk
            exact Or.inl hk

/-- C5. Merging partial result sets concatenates them in partition order
and, when the identity column is present, drops exactly the records whose
identity was already seen earlier, keeping the first occurrence of each
identity; when the identity column is absent no record is dropped.  In
particular the spec scenario — frames `[[id 1 ↦ a], [id 1 ↦ b, id 2 ↦ c]]` —
merges to exactly two records keeping the first-seen attributes of id 1. -/
theorem c5_merge_dedup {κ α : Type} [DecidableEq κ]
    (frames : List (List (Feature κ α))) :
    mergeFrames true frames = keepFirstSeen frames.flatten ∧
    mergeFrames false frames = frames.flatten ∧
    mergeFrames true [[Feature.mk 1 "a"], [Feature.mk 1 "b", Feature.mk 2 "c"]]
      = [Feature.mk (1 : Nat) "a", Feature.mk 2 "c"] := by
  refine ⟨?_, rfl, by decide⟩
  unfold mergeFrames keepFirstSeen
  simp only [if_true]
  rw [keepFirstSeen_foldl_eq frames.flatten [] [] (by simp)]
  simp

/-! ## The concurrent raster dispatcher (C7)

`run_downloader` (identical control flow in GeoSatellite and GeoTiles)
submits one fetch per work item to a worker pool and consumes completions
with `as_completed`, whose order is arbitrary: the run is modelled as a fold
over `order`, an arbitrary permutation of the work list.  The body checks
`if content:` (Python truthiness — false for `None` and for an empty byte
string), on success flips the row to TMS and writes through `save_tile`,
otherwise bumps the error tally; `processed` always advances and periodic
commits do not change the table contents. -/

/-- Python truthiness of the fetched content: `if content:` is false both for
`None` and for the empty byte string. -/
def truthy (c : Option (List Nat)) : Bool :=
  match c with
  | none => false
  | some l => !l.isEmpty

/-- Dispatcher state: the tiles table plus the error and progress tallies. -/
structure RunState where
  store : List (TileRow (List Nat))
  errors : Nat
  processed : Nat
deriving Repr

/-- The store key written for a tile: zoom, column, and the row flipped from
XYZ to TMS by the dispatcher before the write. -/
def storeKey (t : Tile) : Int × Int × Int :=
  ((t.z : Int), t.x, flip_y t.z t.y)

/-- One completion handled by the `as_completed` loop body. -/
def processTile (fetch : Tile → Option (List Nat)) (st : RunState)
    (t : Tile) : RunState :=
  match fetch t with
  | some content =>
    if content.isEmpty then
      { st with errors := st.errors + 1, processed := st.processed + 1 }
    else
      { st with
          store := save_tile st.store (t.z : Int) t.x (flip_y t.z t.y) content,
          processed := st.processed + 1 }
  | none => { st with errors := st.errors + 1, processed := st.processed + 1 }

/-- Function `run_downloader`: drain all completions from the empty store. -/
def run_downloader (fetch : Tile → Option (List Nat)) (order : List Tile) :
    RunState :=
  order.foldl (processTile fetch) ⟨[], 0, 0⟩

lemma storeKey_injective : Function.Injective storeKey := by
  intro t1 t2 h
  cases t1 with | mk z1 x1 y1 =>
  cases t2 with | mk z2 x2 y2 =>
  simp only [storeKey, flip_y, Prod.mk.injEq] at h
  obtain ⟨hz, hx, hy⟩ := h
  have hzz : z1 = z2 := Nat.cast_inj.mp hz
  subst hzz
  have hyy : y1 = y2 := by omega
  rw [hx, hyy]

lemma save_tile_fresh {α : Type} (tbl : List (TileRow α)) (z x y : Int)
    (d : α) (h : (z, x, y) ∉ tbl.map rowKey) :
    save_tile tbl z x y d = tbl ++ [⟨z, x, y, d⟩] := by
  unfold save_tile insertOrIgnore
  rw [if_neg]
  intro hc
  rw [List.any_eq_true] at hc
  obtain ⟨r, hr, hcr⟩ := hc
  simp only [tileConflict, decide_eq_true_eq] at hcr
  exact h (List.mem_map.mpr ⟨r, hr, by simpa [rowKey] using hcr⟩)

lemma run_downloader_fold (fetch : Tile → Option (List Nat)) :
    ∀ (l : List Tile) (st : RunState),
      l.Nodup →
      (∀ t ∈ l, storeKey t ∉ st.store.map rowKey) →
      ((l.foldl (processTile fetch) st).store.map rowKey
          = st.store.map rowKey
            ++ ((l.filter fun t => truthy (fetch t)).map storeKey))
      ∧ (l.foldl (processTile fetch) st).errors
          = st.errors + (l.filter fun t => ! truthy (fetch t)).length
      ∧ (l.foldl (processTile fetch) st).processed
          = st.processed + l.length := by
  intro l
  induction l with
  | nil => intro st _ _; simp
  | cons t rest ih =>
    intro st hnd hkeys
    obtain ⟨htr, hndr⟩ := List.nodup_cons.mp hnd
    simp only [List.foldl_cons]
    have herrcase :
        ∀ st' : RunState,
          st' = { st with errors := st.errors + 1,
                          processed := st.processed + 1 } →
          truthy (fetch t) = false →
          ((rest.foldl (processTile fetch) st').store.map rowKey
              = st.store.map rowKey
                ++ (((t :: rest).filter fun s => truthy (fetch s)).map storeKey))
          ∧ (rest.foldl (processTile fetch) st').errors
              = st.errors
                + ((t :: rest).filter fun s => ! truthy (fetch s)).length
          ∧ (rest.foldl (processTile fetch) st').processed
              = st.processed + (t :: rest).length := by
      intro st' hst' htr'
      have hkeys' : ∀ s ∈ rest, storeKey s ∉ st'.store.map rowKey := by
        rw [hst']
        exact fun s hs => hkeys s (List.mem_cons_of_mem t hs)
      have hrest := ih st' hndr hkeys'
      subst hst'
      refine ⟨?_, ?_, ?_⟩
      · rw [hrest.1]
        simp [List.filter_cons, htr']
      · rw [hrest.2.1]
        simp only [List.filter_cons, htr', Bool.not_false, if_true,
          List.length_cons]
        omega
      · rw [hrest.2.2]
        simp only [List.length_cons]
        omega
    rcases hf : fetch t with _ | content
    · have htr' : truthy (fetch t) = false := by simp [truthy, hf]
      have hpt : processTile fetch st t
          = { st with errors := st.errors + 1,
                      processed := st.processed + 1 } := by
        unfold processTile
        rw [hf]
      rw [hpt]
      exact herrcase _ rfl htr'
    · by_cases he : content.isEmpty
      · have htr' : truthy (fetch t) = false := by simp [truthy, hf, he]
        have hpt : processTile fetch st t
            = { st with errors := st.errors + 1,
                        processed := st.processed + 1 } := by
          simp only [processTile, hf]
          rw [if_pos he]
        rw [hpt]
        exact herrcase _ rfl htr'
      · have htr' : truthy (fetch t) = true := by
          simp only [truthy, hf, Bool.not_eq_true']
          simp [he]
        have hfresh : save_tile st.store (t.z : Int) t.x (flip_y t.z t.y)
            content = st.store ++ [⟨(t.z : Int), t.x, flip_y t.z t.y, content⟩] :=
          save_tile_fresh _ _ _ _ _ (hkeys t (List.mem_cons_self t rest))
        have hpt : processTile fetch st t
            = { st with
                  store := st.store
                    ++ [⟨(t.z : Int), t.x, flip_y t.z t.y, content⟩],
                  processed := st.processed + 1 } := by
          simp only [processTile, hf]
          rw [if_neg he, hfresh]
        rw [hpt]
        have hrest := ih { st with
            store := st.store
              ++ [(⟨(t.z : Int), t.x, flip_y t.z t.y, content⟩ : TileRow (List Nat))],
            processed := st.processed + 1 } hndr ?_
        · refine ⟨?_, ?_, ?_⟩
          · rw [hrest.1]
            simp only [List.map_append, List.filter_cons, htr', if_true]
            simp only [List.map_cons]
            have : rowKey (⟨(t.z : Int), t.x, flip_y t.z t.y, content⟩
                : TileRow (List Nat)) = storeKey t := rfl
            simp [this]
          · rw [hrest.2.1]
            simp [List.filter_cons, htr']
          · rw [hrest.2.2]
            simp
            omega
        · intro s hs
          simp only [List.map_append, List.mem_append, List.map_cons,
            List.map_nil, List.mem_singleton, not_or]
          constructor
          · exact hkeys s (List.mem_cons_of_mem t hs)
          · have hrk : rowKey (⟨(t.z : Int), t.x, flip_y t.z t.y, content⟩
                : TileRow (List Nat)) = storeKey t := rfl
            rw [hrk]
            intro hc
            have hst : s = t := storeKey_injective hc
            subst hst
            exact htr hs

lemma run_downloader_counts (fetch : Tile → Option (List Nat))
    (order : List Tile) (hnd : order.Nodup) :
    (run_downloader fetch order).store.length
      = (order.filter fun t => truthy (fetch t)).length ∧
    (run_downloader fetch order).errors
      = (order.filter fun t => ! truthy (fetch t)).length ∧
    (run_downloader fetch order).processed = order.length := by
  have h := run_downloader_fold fetch order ⟨[], 0, 0⟩ hnd (by simp)
  refine ⟨?_, ?_, ?_⟩
  · have hlen := congrArg List.length h.1
    simpa [run_downloader] using hlen
  · simpa [run_downloader] using h.2.1
  · simpa [run_downloader] using h.2.2

/-- The spec scenario work list: 1000 raster work items, numbered 1..1000 in
the column coordinate. -/
def scenarioTiles : List Tile :=
  (List.range 1000).map fun k => ⟨1, Int.ofNat k + 1, 0⟩

/-- The spec scenario fetch function: fails exactly on the items whose number
is divisible by 7, succeeds with a one-byte payload otherwise. -/
def scenarioFetch (t : Tile) : Option (List Nat) :=
  if t.x % 7 = 0 then none else some [0]

set_option maxRecDepth 8000 in
/-- C7. The dispatcher drains the whole work list: for every work list
without duplicate tile indices, every completion order of the worker pool,
and every fetch function, each item is processed exactly once, the store ends
with exactly one row per item whose fetch returned a (nonempty) payload, and
the error tally equals the number of items that returned no payload.  In
particular, for the spec scenario of 1000 items failing exactly on numbers
divisible by 7, exactly `1000 - 142` tiles are stored and the error tally is
`142 = floor(1000/7)`. -/
theorem c7_dispatcher_counts (tiles order : List Tile)
    (fetch : Tile → Option (List Nat))
    (hperm : order.Perm tiles) (hnd : tiles.Nodup) :
    ((run_downloader fetch order).processed = tiles.length ∧
     (run_downloader fetch order).store.length
       = (tiles.filter fun t => truthy (fetch t)).length ∧
     (run_downloader fetch order).errors
       = (tiles.filter fun t => ! truthy (fetch t)).length) ∧
    (run_downloader scenarioFetch scenarioTiles).store.length = 1000 - 142 ∧
    (run_downloader scenarioFetch scenarioTiles).errors = 142 := by
  have hndo : order.Nodup := (hperm.nodup_iff).mpr hnd
  have h := run_downloader_counts fetch order hndo
  constructor
  · refine ⟨?_, ?_, ?_⟩
    · rw [h.2.2, hperm.length_eq]
    · rw [h.1, (hperm.filter _).length_eq]
    · rw [h.2.1, (hperm.filter _).length_eq]
  · have hinj : Function.Injective
        (fun k : Nat => (⟨1, Int.ofNat k + 1, 0⟩ : Tile)) := by
      intro a b hab
      have hx : Int.ofNat a + 1 = Int.ofNat b + 1 := congrArg Tile.x hab
      exact Int.ofNat.inj (add_right_cancel hx)
    have hndsc : scenarioTiles.Nodup := by
      unfold scenarioTiles
      exact List.Nodup.map hinj (List.nodup_range 1000)
    have hsc := run_downloader_counts scenarioFetch scenarioTiles hndsc
    constructor
    · rw [hsc.1]
      unfold scenarioTiles
      rw [List.filter_map, List.length_map]
      decide
    · rw [hsc.2.1]
      unfold scenarioTiles
      rw [List.filter_map, List.length_map]
      decide

/-- Witness for `c7_dispatcher_counts`: three work items, one of which (the
one with column 0) fails — all three processed, two stored, one error. -/
theorem c7_witness :
    (run_downloader (fun t => if t.x = 0 then none else some [7])
        [⟨1, 0, 0⟩, ⟨1, 1, 0⟩, ⟨1, 2, 0⟩]).processed = 3 ∧
    (run_downloader (fun t => if t.x = 0 then none else some [7])
        [⟨1, 0, 0⟩, ⟨1, 1, 0⟩, ⟨1, 2, 0⟩]).store.length = 2 ∧
    (run_downloader (fun t => if t.x = 0 then none else some [7])
        [⟨1, 0, 0⟩, ⟨1, 1, 0⟩, ⟨1, 2, 0⟩]).errors = 1 := by
  have h := (c7_dispatcher_counts [⟨1, 0, 0⟩, ⟨1, 1, 0⟩, ⟨1, 2, 0⟩]
    [⟨1, 0, 0⟩, ⟨1, 1, 0⟩, ⟨1, 2, 0⟩]
    (fun t => if t.x = 0 then none else some [7])
    (List.Perm.refl _) (by decide)).1
  refine ⟨?_, ?_, ?_⟩
  · rw [h.1]
    decide
  · rw [h.2.1]
    decide
  · rw [h.2.2]
    decide

/-! ## Area-based grid partitioning (C1)

`fetch_layer` (and the bbox variant `fetch_save_voivodeships_geojson`)
approximate the physical area of the bounding rectangle with an
equirectangular correction, return the region itself when it fits under
`max_query_area_size`, and otherwise build an n-by-n grid over the bounding
rectangle with `n = max(2, ceil(sqrt(area / max_area)))`.  In the polygon
path each grid cell is intersected with the original polygon (`shapely`) and
empty intersections are skipped; the bbox path keeps all cells.

Coordinates are rationals.  `math.cos`/`math.sqrt` are external float
routines and appear as the oracle fields of `NumEnv`; the `shapely`
geometry primitives (`bounds`, `box`, `intersection`, `is_empty`) appear as
the oracle fields of `GeomOps`. -/

/-- Numeric oracles: `cosdeg m` models `math.cos(math.radians(m))` and
`sqrtv r` models `math.sqrt(r)`. -/
structure NumEnv where
  cosdeg : Rat → Rat
  sqrtv : Rat → Rat

/-- Geometry oracles over an abstract polygon type `G`, mirroring the shapely
calls of the source: `bounds` gives `(minx, miny, maxx, maxy)`, `mkBox` is
`shapely.geometry.box`, `inter` is `.intersection`, `isEmpty` is
`.is_empty`. -/
structure GeomOps (G : Type) where
  bounds : G → Rat × Rat × Rat × Rat
  mkBox : Rat → Rat → Rat → Rat → G
  inter : G → G → G
  isEmpty : G → Bool

/-- The equirectangular area approximation of lines 620-623 / 130-133:
`(e - w) * m_per_deg_lon * (n - s) * m_per_deg_lat` with
`m_per_deg_lon = 111320 * cos(radians((s + n) / 2))`. -/
def approxArea (ne : NumEnv) (w s e n : Rat) : Rat :=
  let latMid := (s + n) / 2
  let mPerDegLat : Rat := 111320
  let mPerDegLon : Rat := 111320 * ne.cosdeg latMid
  (e - w) * mPerDegLon * (n - s) * mPerDegLat

/-- The grid size `n_tiles = max(2, int(math.ceil(math.sqrt(area / max_area))))`. -/
def nTilesFor (ne : NumEnv) (area maxArea : Rat) : Nat :=
  (max 2 ⌈ne.sqrtv (area / maxArea)⌉).toNat

/-- Grid cell `(i, j)` of the n-by-n split of the bounding rectangle: the
four coordinates passed to `box(...)` in the source loops. -/
def gridCellQ (w s lonStep latStep : Rat) (i j : Nat) :
    Rat × Rat × Rat × Rat :=
  (w + i * lonStep, s + j * latStep,
   w + (i + 1) * lonStep, s + (j + 1) * latStep)

/-- The tiling step of `OSMDownloader.fetch_layer` (lines 617-655): single
tile when the area fits, otherwise the i-major/j-minor double loop building
each cell, intersecting it with the polygon, and appending only nonempty
intersections. -/
def fetchLayerTiles {G : Type} (ne : NumEnv) (ops : GeomOps G) (poly : G)
    (maxArea : Rat) : List G :=
  let b := ops.bounds poly
  let w := b.1
  let s := b.2.1
  let e := b.2.2.1
  let n := b.2.2.2
  let area := approxArea ne w s e n
  if area ≤ maxArea then [poly]
  else
    let nT := nTilesFor ne area maxArea
    let lonStep := (e - w) / (nT : Rat)
    let latStep := (n - s) / (nT : Rat)
    (List.range nT).flatMap fun (i : Nat) =>
      (List.range nT).filterMap fun (j : Nat) =>
        let cell := ops.mkBox (w + (i : Rat) * lonStep) (s + (j : Rat) * latStep)
          (w + ((i : Rat) + 1) * lonStep) (s + ((j : Rat) + 1) * latStep)
        let tp := ops.inter poly cell
        if ops.isEmpty tp then none else some tp

/-- The tiling step of `fetch_save_voivodeships_geojson` (lines 127-153):
the same area test and grid, but over a literal bbox and with every cell
kept (no polygon intersection). -/
def voivTiles (ne : NumEnv) (bbox : Rat × Rat × Rat × Rat) (maxArea : Rat) :
    List (Rat × Rat × Rat × Rat) :=
  let w := bbox.1
  let s := bbox.2.1
  let e := bbox.2.2.1
  let n := bbox.2.2.2
  let area := approxArea ne w s e n
  if area ≤ maxArea then [bbox]
  else
    let nT := nTilesFor ne area maxArea
    let lonStep := (e - w) / (nT : Rat)
    let latStep := (n - s) / (nT : Rat)
    (List.range nT).flatMap fun i =>
      (List.range nT).map fun j => gridCellQ w s lonStep latStep i j

/-- The n-by-n grid over the bounding rectangle, written from the
specification. -/
def gridCellsSpec (w s lonStep latStep : Rat) (nT : Nat) :
    List (Rat × Rat × Rat × Rat) :=
  (List.range nT).flatMap fun i =>
    (List.range nT).map fun j => gridCellQ w s lonStep latStep i j

/-- The claimed partition rule, written from the specification: the region
itself when its approximated area is at most `maxArea`, otherwise every cell
of the n-by-n grid (n = max(2, ceil(sqrt(area / maxArea)))) intersected with
the original polygon, with empty intersections dropped. -/
def partitionSpec {G : Type} (ne : NumEnv) (ops : GeomOps G) (poly : G)
    (maxArea : Rat) : List G :=
  let b := ops.bounds poly
  let w := b.1
  let s := b.2.1
  let e := b.2.2.1
  let n := b.2.2.2
  let area := approxArea ne w s e n
  if area ≤ maxArea then [poly]
  else
    let nT := nTilesFor ne area maxArea
    let lonStep := (e - w) / (nT : Rat)
    let latStep := (n - s) / (nT : Rat)
    ((gridCellsSpec w s lonStep latStep nT).map fun c =>
        ops.inter poly (ops.mkBox c.1 c.2.1 c.2.2.1 c.2.2.2)).filter
      fun t => ! ops.isEmpty t

/-- The claimed bbox partition rule, written from the specification: the
bbox itself when it fits, otherwise the full n-by-n grid. -/
def voivSpec (ne : NumEnv) (bbox : Rat × Rat × Rat × Rat) (maxArea : Rat) :
    List (Rat × Rat × Rat × Rat) :=
  let w := bbox.1
  let s := bbox.2.1
  let e := bbox.2.2.1
  let n := bbox.2.2.2
  let area := approxArea ne w s e n
  if area ≤ maxArea then [bbox]
  else
    let nT := nTilesFor ne area maxArea
    gridCellsSpec w s ((e - w) / (nT : Rat)) ((n - s) / (nT : Rat)) nT

lemma filterMap_if_eq_filter_map {β G : Type} (p : G → Bool) (g : β → G)
    (l : List β) :
    (l.filterMap fun j => if p (g j) then none else some (g j))
      = ((l.map g).filter fun t => ! p t) := by
  induction l with
  | nil => rfl
  | cons a l ih =>
    simp only [List.filterMap_cons, List.map_cons, List.filter_cons]
    cases hpa : p (g a)
    · simp only [hpa, if_false, Bool.not_false, if_true, ih,
        Bool.false_eq_true]
    · simp only [hpa, if_true, Bool.not_true, ih, Bool.false_eq_true,
        if_false]

lemma flatMap_filterMap_grid {G : Type} (p : G → Bool)
    (g : Rat × Rat × Rat × Rat → G) (cell : Nat → Nat → Rat × Rat × Rat × Rat)
    (Y : List Nat) :
    ∀ X : List Nat,
      (X.flatMap fun i => Y.filterMap fun j =>
          if p (g (cell i j)) then none else some (g (cell i j)))
      = (((X.flatMap fun i => Y.map (cell i)).map g).filter fun t => ! p t)
      := by
  intro X
  induction X with
  | nil => rfl
  | cons a X ih =>
    simp only [List.flatMap_cons, List.map_append, List.filter_append]
    rw [ih]
    congr 1
    rw [List.map_map]
    have := filterMap_if_eq_filter_map p (fun j => g (cell a j)) Y
    simpa [Function.comp] using this

/-- C1. For every region and every `maxArea > 0` the partitioning of the
source equals the claimed rule: the region itself as sole sub-region when its
equirectangular-approximated area is at most `maxArea`, otherwise the n-by-n
grid over the bounding rectangle with `n = max(2, ceil(sqrt(area/maxArea)))`
— intersected cell-by-cell with the original polygon and with empty
intersections dropped in the polygon path (`fetch_layer`), kept whole in the
bbox path (`fetch_save_voivodeships_geojson`). -/
theorem c1_partition_matches_spec (ne : NumEnv) {G : Type} (ops : GeomOps G)
    (poly : G) (bbox : Rat × Rat × Rat × Rat) (A : Rat) (_hA : 0 < A) :
    fetchLayerTiles ne ops poly A = partitionSpec ne ops poly A ∧
    voivTiles ne bbox A = voivSpec ne bbox A := by
  constructor
  · simp only [fetchLayerTiles, partitionSpec]
    split
    · rfl
    · unfold gridCellsSpec
      exact flatMap_filterMap_grid ops.isEmpty
        (fun c => ops.inter poly (ops.mkBox c.1 c.2.1 c.2.2.1 c.2.2.2))
        (gridCellQ (ops.bounds poly).1 (ops.bounds poly).2.1 _ _)
        (List.range _) (List.range _)
  · simp only [voivTiles, voivSpec]
    split
    · rfl
    · rfl

/-- A trivial concrete geometry for the witness: a polygon is just its
bounding quadruple, intersection keeps the cell, nothing is empty. -/
def testOps : GeomOps (Rat × Rat × Rat × Rat) where
  bounds := id
  mkBox := fun a b c d => (a, b, c, d)
  inter := fun _ c => c
  isEmpty := fun _ => false

/-- A concrete numeric oracle for the witness. -/
def testNum : NumEnv where
  cosdeg := fun _ => 1
  sqrtv := fun _ => 2

/-- Witness for `c1_partition_matches_spec` at the unit square with
`maxArea = 1`. -/
theorem c1_witness :
    fetchLayerTiles testNum testOps (0, 0, 1, 1) 1
      = partitionSpec testNum testOps (0, 0, 1, 1) 1 ∧
    voivTiles testNum (0, 0, 1, 1) 1 = voivSpec testNum (0, 0, 1, 1) 1 :=
  c1_partition_matches_spec testNum testOps (0, 0, 1, 1) (0, 0, 1, 1) 1
    (by norm_num)
